import Mathlib

/-!
Shallow embedding of `src/krpano/krpano_metadata.rs` (dezoomify-rs krpano
metadata handling).

Modelling conventions:
- Rust `String` / `&str` values are modelled as `List Char` where the code
  manipulates their characters (multires strings, URL templates, side names);
  constant string tags (face names, error messages) stay Lean `String`s.
- Rust `u32` parsing (`str::parse::<u32>`) is modelled by `parseU32`, which
  accepts an optional leading `+` sign followed by ASCII digits and rejects
  values that overflow 32 bits, returning `Option Nat`.
- Rust `Result<T, E>` is `Except E T`, `Vec<T>` is `List T`,
  `Iterator::flat_map ... collect` is `List.map` + `List.join`.
- The `FromStr` tokenizer loop for `TemplateString` (which consumes a shared
  `Chars` iterator with `take_while_ref`) is modelled as the character-level
  state machine `tokenizeAux`: the `none` mode accumulates the current literal
  run and the `some padding` mode is the state after a `%` once `padding`
  leading `'0'` characters have been consumed.  This consumes characters in
  exactly the order the Rust iterator does.  The source stores the zero-run
  count through `count() as u32`, a truncating cast; the model therefore
  emits the count modulo `2^32` as the variable's padding.
-/

deriving instance DecidableEq for Except

/-- Pixel dimensions, mirroring `crate::Vec2d` with `u32` coordinates. -/
structure Vec2d where
  x : Nat
  y : Nat
deriving DecidableEq, Repr

/-- Mirrors `Vec2d::square`. -/
def Vec2d.square (n : Nat) : Vec2d := ⟨n, n⟩

/-- Model of `str::parse::<u32>`: optional leading `+`, then one or more ASCII
digits, value below `2^32`. -/
def parseU32 (s : List Char) : Option Nat :=
  let digits := match s with
    | '+' :: rest => rest
    | _ => s
  if digits.isEmpty then none
  else if digits.all Char.isDigit then
    let v := digits.foldl (fun acc c => acc * 10 + (c.toNat - '0'.toNat)) 0
    if v < 2 ^ 32 then some v else none
  else none

/-- Model of Rust `str::split(sep)` on characters: always returns at least one
(possibly empty) token, one more token per separator occurrence. -/
def splitChar (sep : Char) : List Char → List (List Char)
  | [] => [[]]
  | c :: rest =>
    if c = sep then [] :: splitChar sep rest
    else
      match splitChar sep rest with
      | [] => [[c]]
      | t :: ts => (c :: t) :: ts

/-- Template variables before side expansion (`enum TemplateVariable`). -/
inductive TemplateVariable
  | X
  | Y
  | Side
deriving DecidableEq, Repr

/-- Template variables after side expansion (`enum XY`). -/
inductive XY
  | X
  | Y
deriving DecidableEq, Repr

/-- One part of a URL template (`enum TemplateStringPart<T>`); the literal
payload `Arc<String>` is modelled as its character list, and the Rust field
named `variable` is called `v` because `variable` is a Lean keyword. -/
inductive TemplateStringPart (T : Type)
  | Literal (s : List Char)
  | Variable (padding : Nat) (v : T)
deriving DecidableEq, Repr

/-- Tokenized URL template (`struct TemplateString<T>(pub Vec<TemplateStringPart<T>>)`). -/
structure TemplateString (T : Type) where
  parts : List (TemplateStringPart T)
deriving DecidableEq, Repr

/-- Shape node payload (`struct ShapeDesc`). -/
structure ShapeDesc where
  url : TemplateString TemplateVariable
  multires : Option (List Char)
deriving DecidableEq, Repr

/-- Canonical output record (`struct LevelDesc`). -/
structure LevelDesc where
  name : String
  size : Vec2d
  tilesize : Option Vec2d
  url : TemplateString TemplateVariable
deriving DecidableEq, Repr

/-- Declaration-tree node (`enum KrpanoLevel`); the `Level` variant inlines
`LevelAttributes { tiledimagewidth, tiledimageheight, shape }`. -/
inductive KrpanoLevel
  | Level (tiledimagewidth : Nat) (tiledimageheight : Nat) (shape : List KrpanoLevel)
  | Cube (d : ShapeDesc)
  | Cylinder (d : ShapeDesc)
  | Flat (d : ShapeDesc)
  | Left (d : ShapeDesc)
  | Right (d : ShapeDesc)
  | Front (d : ShapeDesc)
  | Back (d : ShapeDesc)
  | Up (d : ShapeDesc)
  | Down (d : ShapeDesc)

/-- Per-entry parser inside `parse_multires`: the closure applied to every
comma-separated token after the first, with `tilesize_x` the base tile size. -/
def parse_multires_entry (tilesize_x : Nat) (dim_str : List Char) :
    Except String (Vec2d × Vec2d) :=
  match splitChar 'x' dim_str with
  | [] => .error "missing width"
  | w :: dims =>
    match parseU32 w with
    | none => .error "invalid width"
    | some x =>
      let y := (dims.head?.bind parseU32).getD x
      let tilesize := ((dims.drop 1).head?.bind parseU32).getD tilesize_x
      .ok (⟨x, y⟩, Vec2d.square tilesize)

/-- Mirrors `fn parse_multires`: first comma-separated token is the base tile
size; every later token is parsed independently by `parse_multires_entry`. -/
def parse_multires (s : List Char) : List (Except String (Vec2d × Vec2d)) :=
  match splitChar ',' s with
  | [] => [.error "missing tilesize"]
  | first :: rest =>
    match parseU32 first with
    | none => [.error "missing tilesize"]
    | some tilesize_x => rest.map (parse_multires_entry tilesize_x)

/-- Mirrors `fn shape_descriptions`. -/
def shape_descriptions (name : String) (desc : ShapeDesc) (size : Option Vec2d) :
    List (Except String LevelDesc) :=
  match desc.multires with
  | some multires =>
    (parse_multires multires).map fun result =>
      result.map fun st =>
        { name := name, size := st.1, tilesize := some st.2, url := desc.url }
  | none =>
    match size with
    | some sz => [.ok { name := name, size := sz, tilesize := none, url := desc.url }]
    | none => [.error "missing multires attribute"]

mutual

/-- Mirrors `KrpanoLevel::level_descriptions`. -/
def KrpanoLevel.level_descriptions :
    KrpanoLevel → Option Vec2d → List (Except String LevelDesc)
  | .Level w h shape, _ => levelListDescriptions shape (some ⟨w, h⟩)
  | .Cube d, size => shape_descriptions "Cube" d size
  | .Cylinder d, size => shape_descriptions "Cylinder" d size
  | .Flat d, size => shape_descriptions "Flat" d size
  | .Left d, size => shape_descriptions "Left" d size
  | .Right d, size => shape_descriptions "Right" d size
  | .Front d, size => shape_descriptions "Front" d size
  | .Back d, size => shape_descriptions "Back" d size
  | .Up d, size => shape_descriptions "Up" d size
  | .Down d, size => shape_descriptions "Down" d size

/-- The `shape.into_iter().flat_map(...).collect()` over a `Level` node's
children, written as explicit recursion over the child list. -/
def levelListDescriptions :
    List KrpanoLevel → Option Vec2d → List (Except String LevelDesc)
  | [], _ => []
  | l :: ls, size => l.level_descriptions size ++ levelListDescriptions ls size

end

/-- The predicate of the `has_side` check in `all_sides`: is this part a
`Side` variable? -/
def is_side_part : TemplateStringPart TemplateVariable → Bool
  | .Variable _ TemplateVariable.Side => true
  | _ => false

/-- The six cube side names, in the fixed order used by `all_sides`. -/
def sideNames : List (List Char) :=
  [['f', 'o', 'r', 'w', 'a', 'r', 'd'], ['b', 'a', 'c', 'k'],
   ['l', 'e', 'f', 't'], ['r', 'i', 'g', 'h', 't'],
   ['u', 'p'], ['d', 'o', 'w', 'n']]

/-- Mirrors `TemplateStringPart::with_side`; the byte slice `side[..1]` on the
ASCII side names is `side.take 1` on the character list. -/
def TemplateStringPart.with_side
    (part : TemplateStringPart TemplateVariable) (side : List Char) :
    TemplateStringPart XY :=
  match part with
  | .Literal s => .Literal s
  | .Variable padding v =>
    match v with
    | .X => .Variable padding .X
    | .Y => .Variable padding .Y
    | .Side => .Literal (side.take 1)

/-- Mirrors `TemplateString::all_sides`; the returned iterator is modelled as
the list of its elements, in order. -/
def TemplateString.all_sides (self : TemplateString TemplateVariable) :
    List (List Char × TemplateString XY) :=
  let has_side := self.parts.any is_side_part
  let sides := if has_side then sideNames else [[]]
  sides.map fun side => (side, ⟨self.parts.map fun part => part.with_side side⟩)

/-- Structured form of the two `FromStr for TemplateString` error messages:
`Unknown template variable '<c>' in '<input>'` and
`Invalid templating syntax in '<input>'`. -/
inductive TemplateError
  | unknownVariable (c : Char)
  | invalidSyntax
deriving DecidableEq, Repr

/-- The variable-character table of the tokenizer's `match chars.next()`. -/
def variableOfChar (c : Char) : Option TemplateVariable :=
  if c = 'h' ∨ c = 'x' ∨ c = 'u' ∨ c = 'c' then some .X
  else if c = 'v' ∨ c = 'y' ∨ c = 'r' then some .Y
  else if c = 's' then some .Side
  else none

/-- Character-level state machine equivalent to the `from_str` loop.  Mode
`none`: accumulating a literal run (chars are prepended to the head literal of
the tail's tokenization).  Mode `some padding`: a `%` has been read and
`padding` leading `'0'` characters counted so far.  When the variable part is
emitted, the run count is reduced modulo `2^32`, mirroring the source's
`count() as u32` truncating cast. -/
def tokenizeAux :
    List Char → Option Nat →
    Except TemplateError (List (TemplateStringPart TemplateVariable))
  | [], none => .ok [.Literal []]
  | [], some _ => .error .invalidSyntax
  | c :: rest, none =>
    if c = '%' then tokenizeAux rest (some 0)
    else
      match tokenizeAux rest none with
      | .ok (.Literal l :: ps) => .ok (.Literal (c :: l) :: ps)
      | other => other
  | c :: rest, some padding =>
    if c = '0' then tokenizeAux rest (some (padding + 1))
    else
      match variableOfChar c with
      | none => .error (.unknownVariable c)
      | some v =>
        match tokenizeAux rest none with
        | .error e => .error e
        | .ok ps => .ok (.Literal [] :: .Variable (padding % 2 ^ 32) v :: ps)

/-- Mirrors `impl FromStr for TemplateString<TemplateVariable>`. -/
def TemplateString.from_str (input : List Char) :
    Except TemplateError (TemplateString TemplateVariable) :=
  (tokenizeAux input none).map TemplateString.mk

/-- Modelled from the spec: the canonical axis symbol of each variable class
(`h` for X, `v` for Y, `s` for Side). -/
def axisSymbol : TemplateVariable → Char
  | .X => 'h'
  | .Y => 'v'
  | .Side => 's'

/-- Modelled from the spec: render one template part back to text — a literal
verbatim, a variable as `%`, its padding count of `0`s, and one canonical
symbol of its variable's class. -/
def renderPart : TemplateStringPart TemplateVariable → List Char
  | .Literal s => s
  | .Variable padding v => '%' :: (List.replicate padding '0' ++ [axisSymbol v])

/-- Modelled from the spec: re-render a token sequence by concatenating the
renderings of its parts. -/
def render (ps : List (TemplateStringPart TemplateVariable)) : List Char :=
  (ps.map renderPart).flatten

/-- The eight template-variable characters of the fixed escape grammar. -/
def templateSymbols : List Char := ['h', 'x', 'u', 'c', 'v', 'y', 'r', 's']

/-- The fixed escape grammar of template inputs: a sequence of non-`%` literal
characters and escapes `%` + a run of `0`s + one variable symbol. -/
inductive GoodTemplate : List Char → Prop
  | nil : GoodTemplate []
  | lit (c : Char) (hc : c ≠ '%') (rest : List Char) :
      GoodTemplate rest → GoodTemplate (c :: rest)
  | esc (n : Nat) (c : Char) (hc : c ∈ templateSymbols) (rest : List Char) :
      GoodTemplate rest →
      GoodTemplate ('%' :: (List.replicate n '0' ++ c :: rest))

/-- Prepend a literal run onto the head literal part of a tokenization
result; the identity on errors and on shapes the tokenizer never produces. -/
def prependLiteral (lit : List Char)
    (r : Except TemplateError (List (TemplateStringPart TemplateVariable))) :
    Except TemplateError (List (TemplateStringPart TemplateVariable)) :=
  match r with
  | .ok (.Literal l :: ps) => .ok (.Literal (lit ++ l) :: ps)
  | other => other

theorem prependLiteral_nil (r) : prependLiteral [] r = r := by
  rcases r with e | ps
  · rfl
  · rcases ps with _ | ⟨p, tl⟩
    · rfl
    · rcases p with s | pv
      · rfl
      · rfl

theorem prependLiteral_append (a b : List Char) (r) :
    prependLiteral (a ++ b) r = prependLiteral a (prependLiteral b r) := by
  rcases r with e | ps
  · rfl
  · rcases ps with _ | ⟨p, tl⟩
    · rfl
    · rcases p with s | pv
      · simp [prependLiteral]
      · rfl

/-- C2: after a parsable base tile size B, each later comma token is split on
`x`; a successful entry is `(width, height)` with height defaulting to width
when absent, and square tile size defaulting to B when absent; and
`parse_multires "3,6x7,8x8,9x1x4"` is exactly `[(6,7)@(3,3), (8,8)@(3,3),
(9,1)@(4,4)]` in that order. -/
theorem C2_parse_multires_defaults :
    (∀ (s first : List Char) (rest : List (List Char)) (B : Nat),
      splitChar ',' s = first :: rest → parseU32 first = some B →
      parse_multires s = rest.map (parse_multires_entry B)) ∧
    (∀ (B : Nat) (dim w : List Char) (x : Nat),
      splitChar 'x' dim = [w] → parseU32 w = some x →
      parse_multires_entry B dim = .ok (⟨x, x⟩, Vec2d.square B)) ∧
    (∀ (B : Nat) (dim w hgt : List Char) (x yv : Nat),
      splitChar 'x' dim = [w, hgt] → parseU32 w = some x → parseU32 hgt = some yv →
      parse_multires_entry B dim = .ok (⟨x, yv⟩, Vec2d.square B)) ∧
    (∀ (B : Nat) (dim w hgt t : List Char) (ds : List (List Char)) (x yv tv : Nat),
      splitChar 'x' dim = w :: hgt :: t :: ds → parseU32 w = some x →
      parseU32 hgt = some yv → parseU32 t = some tv →
      parse_multires_entry B dim = .ok (⟨x, yv⟩, Vec2d.square tv)) ∧
    parse_multires ['3', ',', '6', 'x', '7', ',', '8', 'x', '8', ',', '9', 'x', '1', 'x', '4'] =
      [.ok (⟨6, 7⟩, ⟨3, 3⟩), .ok (⟨8, 8⟩, ⟨3, 3⟩), .ok (⟨9, 1⟩, ⟨4, 4⟩)] := by
  refine ⟨?_, ?_, ?_, ?_, by decide⟩
  · intro s first rest B hsplit hfirst
    simp [parse_multires, hsplit, hfirst]
  · intro B dim w x hsplit hw
    simp [parse_multires_entry, hsplit, hw]
  · intro B dim w hgt x yv hsplit hw hh
    simp [parse_multires_entry, hsplit, hw, hh]
  · intro B dim w hgt t ds x yv tv hsplit hw hh ht
    simp [parse_multires_entry, hsplit, hw, hh, ht]

/-- Witness for C2 at concrete inputs: the multires string `4,2` with base 4,
the width-only token `2`, the token `2x3`, and the token `2x3x5`. -/
theorem C2_parse_multires_defaults_witness :
    parse_multires ['4', ',', '2'] = [['2']].map (parse_multires_entry 4) ∧
    parse_multires_entry 4 ['2'] = .ok (⟨2, 2⟩, Vec2d.square 4) ∧
    parse_multires_entry 4 ['2', 'x', '3'] = .ok (⟨2, 3⟩, Vec2d.square 4) ∧
    parse_multires_entry 4 ['2', 'x', '3', 'x', '5'] = .ok (⟨2, 3⟩, Vec2d.square 5) :=
  ⟨C2_parse_multires_defaults.1 ['4', ',', '2'] ['4'] [['2']] 4 (by decide) (by decide),
   C2_parse_multires_defaults.2.1 4 ['2'] ['2'] 2 (by decide) (by decide),
   C2_parse_multires_defaults.2.2.1 4 ['2', 'x', '3'] ['2'] ['3'] 2 3
     (by decide) (by decide) (by decide),
   C2_parse_multires_defaults.2.2.2.1 4 ['2', 'x', '3', 'x', '5'] ['2'] ['3'] ['5'] [] 2 3 5
     (by decide) (by decide) (by decide) (by decide)⟩

/-- C3: a missing or unparsable first token makes the whole parse fail with
the single error `missing tilesize`; otherwise the output is positionally the
independent parse of each later token (so a bad width yields `invalid width`
in that entry's position only, and order matches input order). -/
theorem C3_parse_multires_error_scope :
    (∀ (s first : List Char) (rest : List (List Char)),
      splitChar ',' s = first :: rest → parseU32 first = none →
      parse_multires s = [.error "missing tilesize"]) ∧
    (∀ (s first : List Char) (rest : List (List Char)) (B : Nat),
      splitChar ',' s = first :: rest → parseU32 first = some B →
      (parse_multires s).length = rest.length ∧
      ∀ i : Nat, (parse_multires s)[i]? = (rest[i]?).map (parse_multires_entry B)) ∧
    (∀ (B : Nat) (dim w : List Char) (ds : List (List Char)),
      splitChar 'x' dim = w :: ds → parseU32 w = none →
      parse_multires_entry B dim = .error "invalid width") := by
  refine ⟨?_, ?_, ?_⟩
  · intro s first rest hsplit hfirst
    simp [parse_multires, hsplit, hfirst]
  · intro s first rest B hsplit hfirst
    refine ⟨by simp [parse_multires, hsplit, hfirst], ?_⟩
    intro i
    simp [parse_multires, hsplit, hfirst, List.getElem?_map]
  · intro B dim w ds hsplit hw
    simp [parse_multires_entry, hsplit, hw]

/-- Witness for C3 at concrete inputs: the multires strings `a,6` and `3,bx2,6`
and the entry token `bx2`. -/
theorem C3_parse_multires_error_scope_witness :
    parse_multires ['a', ',', '6'] = [.error "missing tilesize"] ∧
    ((parse_multires ['3', ',', 'b', 'x', '2', ',', '6']).length = 2 ∧
      ∀ i : Nat, (parse_multires ['3', ',', 'b', 'x', '2', ',', '6'])[i]? =
        ([['b', 'x', '2'], ['6']][i]?).map (parse_multires_entry 3)) ∧
    parse_multires_entry 3 ['b', 'x', '2'] = .error "invalid width" :=
  ⟨C3_parse_multires_error_scope.1 ['a', ',', '6'] ['a'] [['6']] (by decide) (by decide),
   C3_parse_multires_error_scope.2.1 ['3', ',', 'b', 'x', '2', ',', '6'] ['3']
     [['b', 'x', '2'], ['6']] 3 (by decide) (by decide),
   C3_parse_multires_error_scope.2.2 3 ['b', 'x', '2'] ['b'] [['2']] (by decide) (by decide)⟩

/-- C8: with a valid width, an unparsable height falls back to the width and
an unparsable tile size falls back to the base tile size, the entry still
succeeding; only the width component can fail an entry; and components after
the third are never inspected. -/
theorem C8_parse_multires_lenient_components :
    (∀ (B : Nat) (dim w hgt : List Char) (ds : List (List Char)) (x : Nat),
      splitChar 'x' dim = w :: hgt :: ds → parseU32 w = some x → parseU32 hgt = none →
      parse_multires_entry B dim =
        .ok (⟨x, x⟩, Vec2d.square ((ds.head?.bind parseU32).getD B))) ∧
    (∀ (B : Nat) (dim w hgt t : List Char) (ds : List (List Char)) (x : Nat),
      splitChar 'x' dim = w :: hgt :: t :: ds → parseU32 w = some x → parseU32 t = none →
      parse_multires_entry B dim = .ok (⟨x, (parseU32 hgt).getD x⟩, Vec2d.square B)) ∧
    (∀ (B : Nat) (dim w : List Char) (ds : List (List Char)) (x : Nat),
      splitChar 'x' dim = w :: ds → parseU32 w = some x →
      ∃ val, parse_multires_entry B dim = .ok val) ∧
    (∀ (B : Nat) (dim dim2 w hgt t : List Char) (ds ds2 : List (List Char)),
      splitChar 'x' dim = w :: hgt :: t :: ds → splitChar 'x' dim2 = w :: hgt :: t :: ds2 →
      parse_multires_entry B dim = parse_multires_entry B dim2) := by
  refine ⟨?_, ?_, ?_, ?_⟩
  · intro B dim w hgt ds x hsplit hw hh
    simp [parse_multires_entry, hsplit, hw, hh]
  · intro B dim w hgt t ds x hsplit hw ht
    simp [parse_multires_entry, hsplit, hw, ht]
  · intro B dim w ds x hsplit hw
    simp only [parse_multires_entry, hsplit, hw]
    exact ⟨_, rfl⟩
  · intro B dim dim2 w hgt t ds ds2 hsplit hsplit2
    simp [parse_multires_entry, hsplit, hsplit2]

/-- Witness for C8 at concrete inputs: the entry tokens `2xq`, `2x3xq`, `2xq`
again (still a success), and `2x3x5x9` versus `2x3x5x7x7`. -/
theorem C8_parse_multires_lenient_components_witness :
    parse_multires_entry 4 ['2', 'x', 'q'] =
      .ok (⟨2, 2⟩, Vec2d.square ((([] : List (List Char)).head?.bind parseU32).getD 4)) ∧
    parse_multires_entry 4 ['2', 'x', '3', 'x', 'q'] =
      .ok (⟨2, (parseU32 ['3']).getD 2⟩, Vec2d.square 4) ∧
    (∃ val, parse_multires_entry 4 ['2', 'x', 'q'] = .ok val) ∧
    parse_multires_entry 4 ['2', 'x', '3', 'x', '5', 'x', '9'] =
      parse_multires_entry 4 ['2', 'x', '3', 'x', '5', 'x', '7', 'x', '7'] :=
  ⟨C8_parse_multires_lenient_components.1 4 ['2', 'x', 'q'] ['2'] ['q'] [] 2
     (by decide) (by decide) (by decide),
   C8_parse_multires_lenient_components.2.1 4 ['2', 'x', '3', 'x', 'q'] ['2'] ['3'] ['q'] [] 2
     (by decide) (by decide) (by decide),
   C8_parse_multires_lenient_components.2.2.1 4 ['2', 'x', 'q'] ['2'] [['q']] 2
     (by decide) (by decide),
   C8_parse_multires_lenient_components.2.2.2 4 ['2', 'x', '3', 'x', '5', 'x', '9']
     ['2', 'x', '3', 'x', '5', 'x', '7', 'x', '7'] ['2'] ['3'] ['5'] [['9']] [['7'], ['7']]
     (by decide) (by decide)⟩

/-- C9: a multires string that is only a parsable base tile size (no later
comma tokens, e.g. `512`) parses to the empty sequence, and a shape node
carrying it resolves to the empty result, for any ambient size. -/
theorem C9_base_only_multires_empty :
    (∀ (s first : List Char) (B : Nat),
      splitChar ',' s = [first] → parseU32 first = some B →
      parse_multires s = []) ∧
    (∀ (name : String) (url : TemplateString TemplateVariable)
        (size : Option Vec2d) (m first : List Char) (B : Nat),
      splitChar ',' m = [first] → parseU32 first = some B →
      shape_descriptions name ⟨url, some m⟩ size = []) ∧
    parse_multires ['5', '1', '2'] = [] ∧
    (∀ (name : String) (url : TemplateString TemplateVariable) (size : Option Vec2d),
      shape_descriptions name ⟨url, some ['5', '1', '2']⟩ size = []) := by
  have base : ∀ (s first : List Char) (B : Nat),
      splitChar ',' s = [first] → parseU32 first = some B → parse_multires s = [] := by
    intro s first B hsplit hfirst
    simp [parse_multires, hsplit, hfirst]
  refine ⟨base, ?_, by decide, ?_⟩
  · intro name url size m first B hsplit hfirst
    simp [shape_descriptions, base m first B hsplit hfirst]
  · intro name url size
    simp [shape_descriptions]
    decide

/-- Witness for C9 at the concrete multires string `512`. -/
theorem C9_base_only_multires_empty_witness :
    parse_multires ['5', '1', '2'] = [] ∧
    shape_descriptions "Flat" ⟨⟨[]⟩, some ['5', '1', '2']⟩ none = [] :=
  ⟨C9_base_only_multires_empty.1 ['5', '1', '2'] ['5', '1', '2'] 512 (by decide) (by decide),
   C9_base_only_multires_empty.2.1 "Flat" ⟨[]⟩ none ['5', '1', '2'] ['5', '1', '2'] 512
     (by decide) (by decide)⟩

/-- C1: a shape node with a multires string maps each parse result to a
`LevelDesc` with the node's face name, the parsed size, `some` tile size and
the node's template — errors unchanged and the ambient size unused; with no
multires but an ambient size, exactly one untiled `LevelDesc`; with neither,
exactly the error `missing multires attribute`. -/
theorem C1_shape_descriptions_cases (name : String) (desc : ShapeDesc) (size : Option Vec2d) :
    (∀ m, desc.multires = some m →
      shape_descriptions name desc size =
        (parse_multires m).map fun result : Except String (Vec2d × Vec2d) =>
          match result with
          | .ok st => .ok { name := name, size := st.1, tilesize := some st.2, url := desc.url }
          | .error e => .error e) ∧
    (∀ sz, desc.multires = none → size = some sz →
      shape_descriptions name desc size =
        [.ok { name := name, size := sz, tilesize := none, url := desc.url }]) ∧
    (desc.multires = none → size = none →
      shape_descriptions name desc size = [.error "missing multires attribute"]) := by
  refine ⟨?_, ?_, ?_⟩
  · intro m hm
    simp only [shape_descriptions, hm]
    have hfun : (fun result => Except.map (fun st : Vec2d × Vec2d =>
          ({ name := name, size := st.1, tilesize := some st.2, url := desc.url } : LevelDesc))
          result) =
        fun result : Except String (Vec2d × Vec2d) => match result with
          | .ok st => Except.ok
              ({ name := name, size := st.1, tilesize := some st.2, url := desc.url } : LevelDesc)
          | .error e => .error e := by
      funext r
      rcases r with e | st
      · rfl
      · rfl
    rw [hfun]
  · intro sz hm hsz
    simp [shape_descriptions, hm, hsz]
  · intro hm hsz
    simp [shape_descriptions, hm, hsz]

/-- Witness for C1 at concrete inputs: a shape with multires `3,6` (ambient
size present but unused), a multires-free shape with ambient size, and a
multires-free shape with no ambient size. -/
theorem C1_shape_descriptions_cases_witness :
    shape_descriptions "Cube" ⟨⟨[]⟩, some ['3', ',', '6']⟩ (some ⟨9, 9⟩) =
      (parse_multires ['3', ',', '6']).map (fun result : Except String (Vec2d × Vec2d) =>
        match result with
        | .ok st => .ok { name := "Cube", size := st.1, tilesize := some st.2, url := ⟨[]⟩ }
        | .error e => .error e) ∧
    shape_descriptions "Flat" ⟨⟨[]⟩, none⟩ (some ⟨9, 9⟩) =
      [.ok { name := "Flat", size := ⟨9, 9⟩, tilesize := none, url := ⟨[]⟩ }] ∧
    shape_descriptions "Flat" ⟨⟨[]⟩, none⟩ none = [.error "missing multires attribute"] :=
  ⟨(C1_shape_descriptions_cases "Cube" ⟨⟨[]⟩, some ['3', ',', '6']⟩ (some ⟨9, 9⟩)).1
     ['3', ',', '6'] rfl,
   (C1_shape_descriptions_cases "Flat" ⟨⟨[]⟩, none⟩ (some ⟨9, 9⟩)).2.1 ⟨9, 9⟩ rfl rfl,
   (C1_shape_descriptions_cases "Flat" ⟨⟨[]⟩, none⟩ none).2.2 rfl rfl⟩

/-- C6: resolving a `Level` node with any incoming ambient size concatenates,
in child order, the resolutions of its children under the ambient size built
from its own `tiledimagewidth`/`tiledimageheight` — the incoming size is
discarded. -/
theorem C6_level_node_replaces_ambient_size
    (w h : Nat) (shape : List KrpanoLevel) (size : Option Vec2d) :
    (KrpanoLevel.Level w h shape).level_descriptions size =
      (shape.map fun child => child.level_descriptions (some ⟨w, h⟩)).flatten := by
  rw [KrpanoLevel.level_descriptions]
  induction shape with
  | nil => simp [levelListDescriptions]
  | cons l ls ih => simp [levelListDescriptions, ih]

/-- C5: a template containing a Side variable part expands to exactly six
templates labelled forward, back, left, right, up, down in order, each
replacing every Side variable by a literal holding the label's first
character and keeping X/Y paddings; a template without a Side variable part
expands to exactly one template with the empty label, otherwise unchanged. -/
theorem C5_all_sides_expansion (ts : TemplateString TemplateVariable) :
    ((∃ p ∈ ts.parts, is_side_part p = true) →
      ts.all_sides.map Prod.fst = sideNames ∧
      ∀ pr ∈ ts.all_sides, pr.2.parts = ts.parts.map fun p =>
        match p with
        | .Literal s => .Literal s
        | .Variable pad TemplateVariable.X => .Variable pad XY.X
        | .Variable pad TemplateVariable.Y => .Variable pad XY.Y
        | .Variable _ TemplateVariable.Side => .Literal (pr.1.take 1)) ∧
    ((¬ ∃ p ∈ ts.parts, is_side_part p = true) →
      ts.all_sides = [([], ⟨ts.parts.map fun p =>
        match p with
        | .Literal s => .Literal s
        | .Variable pad TemplateVariable.X => .Variable pad XY.X
        | .Variable pad TemplateVariable.Y => .Variable pad XY.Y
        | .Variable _ TemplateVariable.Side => .Literal []⟩)]) := by
  constructor
  · intro hex
    have hany : ts.parts.any is_side_part = true := List.any_eq_true.mpr hex
    constructor
    · simp [TemplateString.all_sides, hany, sideNames]
    · intro pr hpr
      simp only [TemplateString.all_sides, hany, if_pos, List.mem_map] at hpr
      obtain ⟨side, hside, rfl⟩ := hpr
      have hfun : (fun p : TemplateStringPart TemplateVariable => p.with_side side) =
          fun p => match p with
          | .Literal s => .Literal s
          | .Variable pad TemplateVariable.X => .Variable pad XY.X
          | .Variable pad TemplateVariable.Y => .Variable pad XY.Y
          | .Variable _ TemplateVariable.Side => .Literal (side.take 1) := by
        funext p
        rcases p with s | ⟨pad, v⟩
        · rfl
        · rcases v
          · rfl
          · rfl
          · rfl
      simpa using congrArg ts.parts.map hfun
  · intro hnex
    have hany : ts.parts.any is_side_part = false := by
      rcases h : ts.parts.any is_side_part
      · rfl
      · exact absurd (List.any_eq_true.mp h) hnex
    have hfun : (fun p : TemplateStringPart TemplateVariable => p.with_side []) =
        fun p => match p with
        | .Literal s => .Literal s
        | .Variable pad TemplateVariable.X => .Variable pad XY.X
        | .Variable pad TemplateVariable.Y => .Variable pad XY.Y
        | .Variable _ TemplateVariable.Side => .Literal [] := by
      funext p
      rcases p with s | ⟨pad, v⟩
      · rfl
      · rcases v
        · rfl
        · rfl
        · rfl
    simp [TemplateString.all_sides, hany, hfun]

/-- Witness for C5 at concrete templates: one with a Side variable and one
without. -/
theorem C5_all_sides_expansion_witness :
    ((TemplateString.mk [.Variable 2 TemplateVariable.Side,
        .Variable 1 TemplateVariable.X]).all_sides.map Prod.fst = sideNames ∧
      ∀ pr ∈ (TemplateString.mk [.Variable 2 TemplateVariable.Side,
        .Variable 1 TemplateVariable.X]).all_sides,
        pr.2.parts = [TemplateStringPart.Literal (pr.1.take 1), .Variable 1 XY.X]) ∧
    (TemplateString.mk [.Literal ['a'],
        .Variable 1 TemplateVariable.Y]).all_sides =
      [([], ⟨[.Literal ['a'], .Variable 1 XY.Y]⟩)] := by
  refine ⟨?_, ?_⟩
  · have h := (C5_all_sides_expansion ⟨[.Variable 2 TemplateVariable.Side,
      .Variable 1 TemplateVariable.X]⟩).1 (by decide)
    exact ⟨h.1, fun pr hpr => h.2 pr hpr⟩
  · exact (C5_all_sides_expansion ⟨[.Literal ['a'],
      .Variable 1 TemplateVariable.Y]⟩).2 (by decide)

/-- C10: side expansion is total, and the `side[..1]` extraction in
`with_side` is never reached with the empty label: the empty label only
occurs when no part is a Side variable, and any expansion of a template
containing a Side variable carries a nonempty label. -/
theorem C10_side_label_never_empty :
    (∀ (ts : TemplateString TemplateVariable) (pr : List Char × TemplateString XY),
      pr ∈ ts.all_sides → pr.1 = [] → ∀ p ∈ ts.parts, is_side_part p = false) ∧
    (∀ (ts : TemplateString TemplateVariable) (pr : List Char × TemplateString XY)
        (p : TemplateStringPart TemplateVariable),
      pr ∈ ts.all_sides → p ∈ ts.parts → is_side_part p = true → pr.1 ≠ []) := by
  have key : ∀ (ts : TemplateString TemplateVariable) (pr : List Char × TemplateString XY),
      pr ∈ ts.all_sides → pr.1 = [] → ts.parts.any is_side_part = false := by
    intro ts pr hpr hempty
    rcases hany : ts.parts.any is_side_part
    · rfl
    · exfalso
      simp only [TemplateString.all_sides, hany, if_pos, List.mem_map] at hpr
      obtain ⟨side, hside, rfl⟩ := hpr
      have hne : ∀ s ∈ sideNames, s ≠ [] := by decide
      exact hne side hside hempty
  constructor
  · intro ts pr hpr hempty p hp
    have hany := key ts pr hpr hempty
    rcases h : is_side_part p
    · rfl
    · exact absurd (List.any_eq_true.mpr ⟨p, hp, h⟩) (by simp [hany])
  · intro ts pr p hpr hp hside hempty
    have hany := key ts pr hpr hempty
    exact absurd (List.any_eq_true.mpr ⟨p, hp, hside⟩) (by simp [hany])

/-- Witness for C10: a side-free template's single expansion has the empty
label and a Side-bearing template's first expansion has a nonempty label. -/
theorem C10_side_label_never_empty_witness :
    (∀ p ∈.Literal ['a'] :: ([] : List (TemplateStringPart TemplateVariable)),
      is_side_part p = false) ∧
    (['f', 'o', 'r', 'w', 'a', 'r', 'd'] : List Char) ≠ [] :=
  ⟨C10_side_label_never_empty.1 ⟨[.Literal ['a']]⟩
     ([], ⟨[.Literal ['a']]⟩) (by decide) rfl,
   C10_side_label_never_empty.2 ⟨[.Variable 0 TemplateVariable.Side]⟩
     (['f', 'o', 'r', 'w', 'a', 'r', 'd'], ⟨[.Literal ['f']]⟩)
     (.Variable 0 TemplateVariable.Side)
     (by decide) (by decide) (by decide)⟩

theorem tokenizeAux_ok_shape :
    ∀ (cs : List Char) (mode : Option Nat) (ps : List (TemplateStringPart TemplateVariable)),
    tokenizeAux cs mode = .ok ps → ∃ l tl, ps = .Literal l :: tl := by
  intro cs
  induction cs with
  | nil =>
    intro mode ps h
    rcases mode with _ | p
    · rw [tokenizeAux] at h
      cases h
      exact ⟨[], [], rfl⟩
    · cases h
  | cons c rest ih =>
    intro mode ps h
    rcases mode with _ | p
    · by_cases hc : c = '%'
      · rw [tokenizeAux, if_pos hc] at h
        exact ih (some 0) ps h
      · rw [tokenizeAux, if_neg hc] at h
        rcases hrec : tokenizeAux rest none with e | qs <;> rw [hrec] at h
        · cases h
        · rcases qs with _ | ⟨q, tl⟩
          · obtain ⟨l, tl, hlt⟩ := ih none [] hrec
            cases hlt
          · rcases q with s | ⟨pad, v⟩
            · cases h
              exact ⟨c :: s, tl, rfl⟩
            · obtain ⟨l, tl2, hlt⟩ := ih none (.Variable pad v :: tl) hrec
              cases hlt
    · by_cases hc : c = '0'
      · rw [tokenizeAux, if_pos hc] at h
        exact ih (some (p + 1)) ps h
      · rw [tokenizeAux, if_neg hc] at h
        rcases hv : variableOfChar c with _ | v <;> rw [hv] at h
        · cases h
        · rcases hrec : tokenizeAux rest none with e | qs <;> rw [hrec] at h
          · cases h
          · cases h
            exact ⟨[], _, rfl⟩

theorem tokenizeAux_cons_lit (c : Char) (cs : List Char) (hc : c ≠ '%') :
    tokenizeAux (c :: cs) none = prependLiteral [c] (tokenizeAux cs none) := by
  rw [tokenizeAux, if_neg hc]
  rcases hrec : tokenizeAux cs none with e | qs
  · rfl
  · rcases qs with _ | ⟨q, tl⟩
    · rfl
    · rcases q with s | ⟨pad, v⟩
      · rfl
      · rfl

theorem tokenizeAux_append_lit (lit cs : List Char) (hmem : '%' ∉ lit) :
    tokenizeAux (lit ++ cs) none = prependLiteral lit (tokenizeAux cs none) := by
  induction lit with
  | nil => simp [prependLiteral_nil]
  | cons c lit ih =>
    have hc : c ≠ '%' := fun h => hmem (h ▸ List.mem_cons_self c lit)
    have hmem2 : '%' ∉ lit := fun h => hmem (List.mem_cons_of_mem c h)
    calc tokenizeAux (c :: lit ++ cs) none
        = prependLiteral [c] (tokenizeAux (lit ++ cs) none) :=
          tokenizeAux_cons_lit c (lit ++ cs) hc
      _ = prependLiteral [c] (prependLiteral lit (tokenizeAux cs none)) := by rw [ih hmem2]
      _ = prependLiteral (c :: lit) (tokenizeAux cs none) :=
          (prependLiteral_append [c] lit _).symm

theorem tokenizeAux_zeros (n : Nat) (cs : List Char) (p : Nat) :
    tokenizeAux (List.replicate n '0' ++ cs) (some p) = tokenizeAux cs (some (p + n)) := by
  induction n generalizing p with
  | zero => simp
  | succ n ih =>
    rw [List.replicate_succ, List.cons_append, tokenizeAux, if_pos rfl, ih (p + 1)]
    congr 2
    omega

theorem tokenizeAux_var (c : Char) (cs : List Char) (p : Nat) (v : TemplateVariable)
    (hv : variableOfChar c = some v) :
    tokenizeAux (c :: cs) (some p) =
      match tokenizeAux cs none with
      | .error e => .error e
      | .ok ps => .ok (.Literal [] :: .Variable (p % 2 ^ 32) v :: ps) := by
  have hc : c ≠ '0' := by
    rintro rfl
    simp [variableOfChar] at hv
  rw [tokenizeAux, if_neg hc, hv]

theorem tokenizeAux_unknown (c : Char) (cs : List Char) (p : Nat)
    (hc : c ≠ '0') (hv : variableOfChar c = none) :
    tokenizeAux (c :: cs) (some p) = .error (.unknownVariable c) := by
  rw [tokenizeAux, if_neg hc, hv]

theorem variableOfChar_eq_none (c : Char) (hmem : c ∉ templateSymbols) :
    variableOfChar c = none := by
  simp only [templateSymbols, List.mem_cons, List.not_mem_nil, or_false, not_or] at hmem
  obtain ⟨h1, h2, h3, h4, h5, h6, h7, h8⟩ := hmem
  simp [variableOfChar, h1, h2, h3, h4, h5, h6, h7, h8]

/-- C4 counterexample: the original claim reads the padding as the exact
count of the `0` run, but the source truncates the count with `as u32`; on
`%` followed by `2^32` zeros and `h`, the code yields padding `0`, not
`2^32`. -/
theorem C4_template_tokenizer_counterexample :
    tokenizeAux ('%' :: (List.replicate (2 ^ 32) '0' ++ ['h'])) none =
      .ok [.Literal [], .Variable 0 TemplateVariable.X, .Literal []] ∧
    tokenizeAux ('%' :: (List.replicate (2 ^ 32) '0' ++ ['h'])) none ≠
      .ok [.Literal [], .Variable (2 ^ 32) TemplateVariable.X, .Literal []] := by
  have key : tokenizeAux ('%' :: (List.replicate (2 ^ 32) '0' ++ ['h'])) none =
      .ok [.Literal [], .Variable 0 TemplateVariable.X, .Literal []] := by
    rw [tokenizeAux, if_pos rfl, tokenizeAux_zeros, Nat.zero_add,
      tokenizeAux_var 'h' [] (2 ^ 32) TemplateVariable.X (by decide), Nat.mod_self]
    rfl
  refine ⟨key, ?_⟩
  rw [key]
  decide

/-- C4 (amended): the tokenizer accumulates literal runs up to each `%`,
takes the count of the run of `0`s modulo `2^32` (the source's `count() as
u32` truncating cast) as padding, maps h/x/u/c to X, v/y/r to Y and s to
Side, fails on any other following character with an unknown-variable error
and at end of input with a syntax error, appends the final literal run on
success, and never recovers partially from an error. -/
theorem C4_template_tokenizer :
    (∀ lit : List Char, '%' ∉ lit →
      TemplateString.from_str lit = .ok ⟨[.Literal lit]⟩) ∧
    (∀ (lit : List Char) (n : Nat) (c : Char) (rest : List Char) (v : TemplateVariable),
      '%' ∉ lit → variableOfChar c = some v →
      tokenizeAux (lit ++ '%' :: (List.replicate n '0' ++ c :: rest)) none =
        match tokenizeAux rest none with
        | .error e => .error e
        | .ok ps => .ok (.Literal lit :: .Variable (n % 2 ^ 32) v :: ps)) ∧
    ((∀ c ∈ (['h', 'x', 'u', 'c'] : List Char), variableOfChar c = some TemplateVariable.X) ∧
      (∀ c ∈ (['v', 'y', 'r'] : List Char), variableOfChar c = some TemplateVariable.Y) ∧
      variableOfChar 's' = some TemplateVariable.Side) ∧
    (∀ (lit : List Char) (n : Nat) (c : Char) (rest : List Char),
      '%' ∉ lit → c ∉ templateSymbols → c ≠ '0' →
      tokenizeAux (lit ++ '%' :: (List.replicate n '0' ++ c :: rest)) none =
        .error (.unknownVariable c)) ∧
    (∀ (lit : List Char) (n : Nat), '%' ∉ lit →
      tokenizeAux (lit ++ '%' :: List.replicate n '0') none = .error .invalidSyntax) := by
  have esc_head : ∀ (n : Nat) (tail : List Char),
      tokenizeAux ('%' :: (List.replicate n '0' ++ tail)) none =
        tokenizeAux tail (some n) := by
    intro n tail
    rw [tokenizeAux, if_pos rfl, tokenizeAux_zeros, Nat.zero_add]
  refine ⟨?_, ?_, ⟨by decide, by decide, by decide⟩, ?_, ?_⟩
  · intro lit hmem
    have h := tokenizeAux_append_lit lit [] hmem
    rw [List.append_nil] at h
    rw [TemplateString.from_str, h, tokenizeAux]
    simp [prependLiteral, Except.map]
  · intro lit n c rest v hmem hv
    rw [tokenizeAux_append_lit lit _ hmem, esc_head, tokenizeAux_var c rest n v hv]
    rcases hrec : tokenizeAux rest none with e | ps
    · rfl
    · simp [prependLiteral]
  · intro lit n c rest hmem hsym hc
    rw [tokenizeAux_append_lit lit _ hmem, esc_head,
      tokenizeAux_unknown c rest n hc (variableOfChar_eq_none c hsym)]
    rfl
  · intro lit n hmem
    have h := tokenizeAux_append_lit lit ('%' :: List.replicate n '0') hmem
    rw [h, tokenizeAux, if_pos rfl]
    have h2 := tokenizeAux_zeros n [] 0
    rw [List.append_nil] at h2
    rw [h2, tokenizeAux]
    rfl

/-- Witness for C4 at concrete inputs: literal token `t.`, the template
`t%00h.j`, the unknown-variable template `t%q` and the truncated template
`t%0`. -/
theorem C4_template_tokenizer_witness :
    TemplateString.from_str ['t', '.'] = .ok ⟨[.Literal ['t', '.']]⟩ ∧
    tokenizeAux (['t'] ++ '%' :: (List.replicate 2 '0' ++ 'h' :: ['.', 'j'])) none =
      (match tokenizeAux ['.', 'j'] none with
       | .error e => .error e
       | .ok ps => .ok (.Literal ['t'] :: .Variable 2 TemplateVariable.X :: ps)) ∧
    tokenizeAux (['t'] ++ '%' :: (List.replicate 0 '0' ++ 'q' :: [])) none =
      .error (.unknownVariable 'q') ∧
    tokenizeAux (['t'] ++ '%' :: List.replicate 1 '0') none = .error .invalidSyntax :=
  ⟨C4_template_tokenizer.1 ['t', '.'] (by decide),
   C4_template_tokenizer.2.1 ['t'] 2 'h' ['.', 'j'] TemplateVariable.X (by decide) (by decide),
   C4_template_tokenizer.2.2.2.1 ['t'] 0 'q' [] (by decide) (by decide) (by decide),
   C4_template_tokenizer.2.2.2.2 ['t'] 1 (by decide)⟩

theorem variableOfChar_axisSymbol (v : TemplateVariable) :
    variableOfChar (axisSymbol v) = some v := by
  rcases v
  · decide
  · decide
  · decide

theorem variableOfChar_of_mem_templateSymbols (c : Char) (hmem : c ∈ templateSymbols) :
    ∃ v, variableOfChar c = some v := by
  simp only [templateSymbols, List.mem_cons, List.not_mem_nil, or_false] at hmem
  rcases hmem with rfl | rfl | rfl | rfl | rfl | rfl | rfl | rfl
  · exact ⟨.X, by decide⟩
  · exact ⟨.X, by decide⟩
  · exact ⟨.X, by decide⟩
  · exact ⟨.X, by decide⟩
  · exact ⟨.Y, by decide⟩
  · exact ⟨.Y, by decide⟩
  · exact ⟨.Y, by decide⟩
  · exact ⟨.Side, by decide⟩

theorem render_literal_cons (l : List Char) (tl : List (TemplateStringPart TemplateVariable)) :
    render (.Literal l :: tl) = l ++ render tl := by
  simp [render, renderPart]

theorem render_escape_cons (n : Nat) (v : TemplateVariable)
    (tl : List (TemplateStringPart TemplateVariable)) :
    render (.Literal [] :: .Variable n v :: tl) =
      '%' :: (List.replicate n '0' ++ axisSymbol v :: render tl) := by
  simp [render, renderPart]

/-- C7: every input over the fixed escape grammar tokenizes successfully, and
re-rendering the resulting token sequence yields a template that tokenizes to
the same token sequence (an equivalent template). -/
theorem C7_tokenize_render_roundtrip (cs : List Char) (hg : GoodTemplate cs) :
    ∃ ts : TemplateString TemplateVariable,
      TemplateString.from_str cs = .ok ts ∧
      TemplateString.from_str (render ts.parts) = .ok ts := by
  have main : ∃ ps, tokenizeAux cs none = .ok ps ∧ tokenizeAux (render ps) none = .ok ps := by
    induction hg with
    | nil =>
      refine ⟨[.Literal []], rfl, ?_⟩
      have : render [.Literal []] = ([] : List Char) := by simp [render, renderPart]
      rw [this]
      rfl
    | lit c hc rest hrest ih =>
      obtain ⟨ps, h1, h2⟩ := ih
      obtain ⟨l, tl, rfl⟩ := tokenizeAux_ok_shape _ _ _ h1
      refine ⟨.Literal (c :: l) :: tl, ?_, ?_⟩
      · rw [tokenizeAux_cons_lit c rest hc, h1]
        rfl
      · have hr : render (.Literal (c :: l) :: tl) = c :: render (.Literal l :: tl) := by
          rw [render_literal_cons, render_literal_cons, List.cons_append]
        rw [hr, tokenizeAux_cons_lit c _ hc, h2]
        rfl
    | esc n c hcmem rest hrest ih =>
      obtain ⟨ps, h1, h2⟩ := ih
      obtain ⟨v, hv⟩ := variableOfChar_of_mem_templateSymbols c hcmem
      refine ⟨.Literal [] :: .Variable (n % 2 ^ 32) v :: ps, ?_, ?_⟩
      · rw [tokenizeAux, if_pos rfl, tokenizeAux_zeros, Nat.zero_add,
          tokenizeAux_var c rest n v hv, h1]
      · rw [render_escape_cons, tokenizeAux, if_pos rfl, tokenizeAux_zeros, Nat.zero_add,
          tokenizeAux_var _ _ (n % 2 ^ 32) v (variableOfChar_axisSymbol v), h2,
          Nat.mod_mod_of_dvd n (dvd_refl (2 ^ 32))]
  obtain ⟨ps, h1, h2⟩ := main
  exact ⟨⟨ps⟩, by rw [TemplateString.from_str, h1]; rfl,
    by rw [TemplateString.from_str, h2]; rfl⟩

/-- Witness for C7 at the concrete grammar-conforming input `a%0s`. -/
theorem C7_tokenize_render_roundtrip_witness :
    ∃ ts : TemplateString TemplateVariable,
      TemplateString.from_str ['a', '%', '0', 's'] = .ok ts ∧
      TemplateString.from_str (render ts.parts) = .ok ts :=
  C7_tokenize_render_roundtrip ['a', '%', '0', 's']
    (GoodTemplate.lit 'a' (by decide) _
      (GoodTemplate.esc 1 's' (by decide) [] GoodTemplate.nil))
